import Mathlib

/-!
Shallow embedding, in Lean 4, of the subtitle synchronization core of
`src/app.py` (VidTransHeb): the SRT time formatter
`convert_seconds_to_srt_time`, the SRT serializer `generate_new_srt`, the
segment rebuild step of `get_transcript_and_translation`, the error-message
composer `safe_send_error_message`, and the surrounding control flow of
`handle_video` that decides whether subtitle output is produced.

Modelling conventions:
* Python floats are embedded as exact rationals (`ℚ`); the arithmetic in
  `convert_seconds_to_srt_time` is carried out exactly.
* Python `x % m` (float modulo, positive divisor) is `pyMod`;
  Python `int(x // m)` and `int(x)` on the non-negative quantities that occur
  here are `Int.floor`.
* Python strings are Lean `String`s; Python `len`/slicing count code points,
  as Lean's `String.length`/`String.take` do.
* Fallible code (Python `raise`) is embedded with `Except`.
-/

namespace VidTransHeb

/-- Canonical time-coded text unit: Python dict `{'start': float, 'end': float,
'text': str}` (and the whisper segment objects, which expose the same three
fields).  The Python key `end` is a Lean keyword, so it is embedded as `stop`. -/
structure Segment where
  start : ℚ
  stop : ℚ
  text : String
  deriving Repr, DecidableEq

/-- Python `a % b` for a positive divisor `b`: the representative of `a`
modulo `b` lying in `[0, b)`, i.e. `a - b * ⌊a / b⌋`. -/
def pyMod (a b : ℚ) : ℚ := a - b * ⌊a / b⌋

/-- Zero-pad the decimal rendering of a natural number to width `w`
(Python `f"{n:0wd}"` for non-negative `n`). -/
def padNat (w : ℕ) (n : ℕ) : String :=
  String.mk (List.replicate (w - (toString n).length) '0') ++ toString n

/-- Python `f"{n:0wd}"` for an integer `n`: the sign, when present, counts
toward the field width. -/
def pad (w : ℕ) (n : ℤ) : String :=
  if n < 0 then "-" ++ padNat (w - 1) n.natAbs else padNat w n.toNat

/-- Embedding of `convert_seconds_to_srt_time` (src/app.py lines 105-112):
`hours = int(seconds // 3600)`, `minutes = int((seconds % 3600) // 60)`,
`remaining_seconds = seconds % 60`,
`milliseconds = int((remaining_seconds - int(remaining_seconds)) * 1000)`,
rendered as `f"{hours:02}:{minutes:02}:{int(remaining_seconds):02},{milliseconds:03}"`.
Since `seconds % 60` is non-negative, Python's truncating `int()` agrees with
`Int.floor` on every quantity it is applied to. -/
def convert_seconds_to_srt_time (seconds : ℚ) : String :=
  let hours : ℤ := ⌊seconds / 3600⌋
  let minutes : ℤ := ⌊pyMod seconds 3600 / 60⌋
  let remaining_seconds : ℚ := pyMod seconds 60
  let milliseconds : ℤ := ⌊(remaining_seconds - (⌊remaining_seconds⌋ : ℤ)) * 1000⌋
  pad 2 hours ++ ":" ++ pad 2 minutes ++ ":" ++ pad 2 ⌊remaining_seconds⌋ ++ "," ++ pad 3 milliseconds

/-- Python `a % b` rewritten through `Int.fract`. -/
lemma pyMod_eq_fract (a b : ℚ) (hb : b ≠ 0) : pyMod a b = b * Int.fract (a / b) := by
  rw [pyMod, Int.fract, mul_sub, mul_div_cancel₀ _ hb]

lemma pyMod_nonneg (a : ℚ) {b : ℚ} (hb : 0 < b) : 0 ≤ pyMod a b := by
  rw [pyMod_eq_fract a b hb.ne']
  exact mul_nonneg hb.le (Int.fract_nonneg _)

lemma pyMod_lt (a : ℚ) {b : ℚ} (hb : 0 < b) : pyMod a b < b := by
  rw [pyMod_eq_fract a b hb.ne']
  calc b * Int.fract (a / b) < b * 1 := (mul_lt_mul_left hb).mpr (Int.fract_lt_one _)
  _ = b := mul_one b

lemma pad_of_nonneg {n : ℤ} (hn : 0 ≤ n) (w : ℕ) : pad w n = padNat w n.toNat := by
  rw [pad, if_neg (not_lt.mpr hn)]

lemma padNat_length (w n : ℕ) :
    (padNat w n).length = (w - (toString n).length) + (toString n).length := by
  rw [padNat, String.length_append, String.length_mk, List.length_replicate]

set_option maxRecDepth 10000 in
/-- Every natural number below 100 zero-pads to exactly two decimal digits. -/
lemma padNat_two_digits : ∀ m : ℕ, m < 100 →
    ((padNat 2 m).toList.all Char.isDigit = true ∧ (padNat 2 m).length = 2) := by decide

set_option maxRecDepth 10000 in
/-- Every natural number below 1000 zero-pads to exactly three decimal digits. -/
lemma padNat_three_digits : ∀ m : ℕ, m < 1000 →
    ((padNat 3 m).toList.all Char.isDigit = true ∧ (padNat 3 m).length = 3) := by decide

/-- C4: `convert_seconds_to_srt_time` maps 3725.4 s to "01:02:05,400" and
0.0 s to "00:00:00,000"; the millisecond field is obtained by truncation of
the fractional seconds, not rounding (0.9999 s formats as "00:00:00,999",
where rounding would give 1000 ms). -/
theorem srt_time_concrete_values :
    convert_seconds_to_srt_time 3725.4 = "01:02:05,400" ∧
    convert_seconds_to_srt_time 0.0 = "00:00:00,000" ∧
    convert_seconds_to_srt_time 0.9999 = "00:00:00,999" := by
  refine ⟨?_, ?_, ?_⟩ <;>
    (norm_num [convert_seconds_to_srt_time, pyMod, pad, padNat]; decide)

/-- C5: for every non-negative number of seconds the formatted string is
`HH:MM:SS,mmm`: the minutes and seconds fields are exactly two decimal digits
in 00-59, the milliseconds field exactly three decimal digits in 000-999, and
the hours field is zero-padded to at least two digits (it alone may grow). -/
theorem srt_time_fields_in_range (q : ℚ) (hq : 0 ≤ q) :
    ∃ h m s ms : ℕ,
      convert_seconds_to_srt_time q =
          padNat 2 h ++ ":" ++ padNat 2 m ++ ":" ++ padNat 2 s ++ "," ++ padNat 3 ms ∧
        m ≤ 59 ∧ s ≤ 59 ∧ ms ≤ 999 ∧
        (padNat 2 m).length = 2 ∧ (padNat 2 s).length = 2 ∧ (padNat 3 ms).length = 3 ∧
        (padNat 2 m).toList.all Char.isDigit = true ∧
        (padNat 2 s).toList.all Char.isDigit = true ∧
        (padNat 3 ms).toList.all Char.isDigit = true ∧
        2 ≤ (padNat 2 h).length := by
  have h3600 : (0:ℚ) < 3600 := by norm_num
  have h60 : (0:ℚ) < 60 := by norm_num
  have hh : (0:ℤ) ≤ ⌊q / 3600⌋ := Int.floor_nonneg.mpr (div_nonneg hq (by norm_num))
  have hm0 : (0:ℤ) ≤ ⌊pyMod q 3600 / 60⌋ :=
    Int.floor_nonneg.mpr (div_nonneg (pyMod_nonneg q h3600) h60.le)
  have hm1 : ⌊pyMod q 3600 / 60⌋ < 60 := by
    apply Int.floor_lt.mpr
    rw [div_lt_iff₀ h60]
    have := pyMod_lt q h3600
    push_cast
    linarith
  have hs0 : (0:ℤ) ≤ ⌊pyMod q 60⌋ := Int.floor_nonneg.mpr (pyMod_nonneg q h60)
  have hs1 : ⌊pyMod q 60⌋ < 60 := by
    apply Int.floor_lt.mpr
    push_cast
    exact pyMod_lt q h60
  have hfr0 : (0:ℚ) ≤ pyMod q 60 - ((⌊pyMod q 60⌋ : ℤ) : ℚ) := by
    have := Int.floor_le (pyMod q 60); linarith
  have hfr1 : pyMod q 60 - ((⌊pyMod q 60⌋ : ℤ) : ℚ) < 1 := by
    have := Int.lt_floor_add_one (pyMod q 60); linarith
  have hms0 : (0:ℤ) ≤ ⌊(pyMod q 60 - ((⌊pyMod q 60⌋ : ℤ) : ℚ)) * 1000⌋ :=
    Int.floor_nonneg.mpr (mul_nonneg hfr0 (by norm_num))
  have hms1 : ⌊(pyMod q 60 - ((⌊pyMod q 60⌋ : ℤ) : ℚ)) * 1000⌋ < 1000 := by
    apply Int.floor_lt.mpr
    push_cast
    nlinarith
  have hmB := padNat_two_digits ⌊pyMod q 3600 / 60⌋.toNat (by omega)
  have hsB := padNat_two_digits ⌊pyMod q 60⌋.toNat (by omega)
  have hmsB := padNat_three_digits (⌊(pyMod q 60 - ((⌊pyMod q 60⌋ : ℤ) : ℚ)) * 1000⌋).toNat (by omega)
  refine ⟨⌊q / 3600⌋.toNat, ⌊pyMod q 3600 / 60⌋.toNat, ⌊pyMod q 60⌋.toNat,
      (⌊(pyMod q 60 - ((⌊pyMod q 60⌋ : ℤ) : ℚ)) * 1000⌋).toNat,
      ?_, by omega, by omega, by omega,
      hmB.2, hsB.2, hmsB.2, hmB.1, hsB.1, hmsB.1, ?_⟩
  · simp only [convert_seconds_to_srt_time]
    rw [pad_of_nonneg hh, pad_of_nonneg hm0, pad_of_nonneg hs0, pad_of_nonneg hms0]
  · rw [padNat_length]
    omega

/-- Witness for C5 at 3725.4 seconds. -/
theorem srt_time_fields_in_range_witness :
    (0:ℚ) ≤ 3725.4 ∧
    ∃ h m s ms : ℕ,
      convert_seconds_to_srt_time 3725.4 =
          padNat 2 h ++ ":" ++ padNat 2 m ++ ":" ++ padNat 2 s ++ "," ++ padNat 3 ms ∧
        m ≤ 59 ∧ s ≤ 59 ∧ ms ≤ 999 ∧
        (padNat 2 m).length = 2 ∧ (padNat 2 s).length = 2 ∧ (padNat 3 ms).length = 3 ∧
        (padNat 2 m).toList.all Char.isDigit = true ∧
        (padNat 2 s).toList.all Char.isDigit = true ∧
        (padNat 3 ms).toList.all Char.isDigit = true ∧
        2 ≤ (padNat 2 h).length :=
  ⟨by norm_num, srt_time_fields_in_range 3725.4 (by norm_num)⟩


/-- The whitespace characters removed by Python's `str.strip()`: the ASCII
whitespace `\t \n \v \f \r` and space, the control characters U+1C-U+1F, and
the Unicode whitespace U+85 (NEL), U+A0 (NBSP), U+1680 (Ogham space),
U+2000-U+200A (typographic spaces), U+2028/U+2029 (line/paragraph separator),
U+202F (narrow NBSP), U+205F (medium mathematical space) and U+3000
(ideographic space) — the code points with `str.isspace()` true. -/
def isPyWhitespace (c : Char) : Bool :=
  c = ' ' || c = '\t' || c = '\n' || c = '\r' || c = Char.ofNat 11 || c = Char.ofNat 12 ||
    (28 ≤ c.toNat && c.toNat ≤ 31) || c.toNat = 133 || c.toNat = 160 ||
    c.toNat = 5760 || (8192 ≤ c.toNat && c.toNat ≤ 8202) ||
    c.toNat = 8232 || c.toNat = 8233 || c.toNat = 8239 ||
    c.toNat = 8287 || c.toNat = 12288

/-- Python `str.strip()` at the character-list level: drop leading whitespace,
then drop trailing whitespace. -/
def pyStripList (l : List Char) : List Char :=
  ((l.dropWhile isPyWhitespace).reverse.dropWhile isPyWhitespace).reverse

/-- Python `str.strip()`. -/
def pyStrip (s : String) : String := String.mk (pyStripList s.toList)

/-- One SRT entry as built by the loop body of `generate_new_srt`
(src/app.py lines 120-126): the entry number `i + 1` on its own line, the
timing line, and the segment text; the loop then appends the newline that
terminates the text line and the blank separator line. -/
def srtEntry (i : ℕ) (s : Segment) : String :=
  toString (i + 1) ++ "\n" ++ convert_seconds_to_srt_time s.start ++ " --> " ++
    convert_seconds_to_srt_time s.stop ++ "\n" ++ s.text

/-- The accumulation loop of `generate_new_srt`: for the segment with
enumeration index `i`, append `f"{i + 1}\n{start_time} --> {end_time}\n{text}\n\n"`. -/
def srtLoop : ℕ → List Segment → String
  | _, [] => ""
  | i, s :: rest => srtEntry i s ++ "\n\n" ++ srtLoop (i + 1) rest

/-- Embedding of `generate_new_srt` (src/app.py lines 114-128): accumulate one
entry per segment in input order, then `strip()` the accumulated string. -/
def generate_new_srt (segs : List Segment) : String := pyStrip (srtLoop 0 segs)

/-- Specification-side rendering of the SRT output: the same entries, with one
blank line separating consecutive entries and no trailing separator. -/
def srtBody : ℕ → List Segment → String
  | _, [] => ""
  | i, [s] => srtEntry i s
  | i, s :: t :: rest => srtEntry i s ++ "\n\n" ++ srtBody (i + 1) (t :: rest)

lemma srtLoop_eq_body (i : ℕ) (s : Segment) (rest : List Segment) :
    srtLoop i (s :: rest) = srtBody i (s :: rest) ++ "\n\n" := by
  induction rest generalizing i s with
  | nil => simp [srtLoop, srtBody]
  | cons t r ih =>
    have e1 : srtLoop i (s :: t :: r) = srtEntry i s ++ "\n\n" ++ srtLoop (i + 1) (t :: r) := rfl
    have e2 : srtBody i (s :: t :: r) = srtEntry i s ++ "\n\n" ++ srtBody (i + 1) (t :: r) := rfl
    rw [e1, e2, ih]
    simp [String.append_assoc]

lemma srtBody_zero_head (s : Segment) (rest : List Segment) :
    (srtBody 0 (s :: rest)).toList.head? = some '1' := by
  cases rest <;> simp [srtBody, srtEntry, String.toList, String.data_append] <;> rfl

lemma srtBody_ends_with : ∀ (i : ℕ) (segs : List Segment) (last : Segment),
    segs.getLast? = some last → ∃ p : String, srtBody i segs = p ++ last.text := by
  intro i segs
  induction segs generalizing i with
  | nil => simp
  | cons s rest ih =>
    intro last hl
    cases rest with
    | nil =>
      simp only [List.getLast?_singleton, Option.some.injEq] at hl
      subst hl
      exact ⟨toString (i + 1) ++ "\n" ++ convert_seconds_to_srt_time s.start ++ " --> " ++
        convert_seconds_to_srt_time s.stop ++ "\n", rfl⟩
    | cons t r =>
      rw [List.getLast?_cons_cons] at hl
      obtain ⟨p, hp⟩ := ih (i + 1) last hl
      refine ⟨srtEntry i s ++ "\n\n" ++ p, ?_⟩
      have e2 : srtBody i (s :: t :: r) = srtEntry i s ++ "\n\n" ++ srtBody (i + 1) (t :: r) := rfl
      rw [e2, hp]
      simp [String.append_assoc]

lemma srtBody_getLast {c : Char} {i : ℕ} {segs : List Segment} {last : Segment}
    (hl : segs.getLast? = some last) (hc : last.text.toList.getLast? = some c) :
    (srtBody i segs).toList.getLast? = some c := by
  obtain ⟨p, hp⟩ := srtBody_ends_with i segs last hl
  have h1 : (p ++ last.text).toList = p.toList ++ last.text.toList := by
    simp [String.toList, String.data_append]
  rw [hp, h1, List.getLast?_append, hc]
  rfl

lemma pyStrip_body {b : String} {c c' : Char}
    (hh : b.toList.head? = some c) (hc : isPyWhitespace c = false)
    (hl : b.toList.getLast? = some c') (hc' : isPyWhitespace c' = false) :
    pyStrip (b ++ "\n\n") = b := by
  obtain ⟨t, ht⟩ : ∃ t, b.toList = c :: t := by
    cases hbt : b.toList with
    | nil => rw [hbt] at hh; simp at hh
    | cons x xs => rw [hbt] at hh; simp at hh; exact ⟨xs, by rw [hh]⟩
  obtain ⟨r, hr⟩ : ∃ r, b.toList.reverse = c' :: r := by
    cases hbr : b.toList.reverse with
    | nil => rw [← List.head?_reverse, hbr] at hl; simp at hl
    | cons x xs =>
      rw [← List.head?_reverse, hbr] at hl; simp at hl; exact ⟨xs, by rw [hl]⟩
  have h1 : (b ++ "\n\n").toList = b.toList ++ ['\n', '\n'] := by
    simp [String.toList, String.data_append]
  have h2 : List.dropWhile isPyWhitespace (b.toList ++ ['\n', '\n']) =
      b.toList ++ ['\n', '\n'] := by
    rw [ht, List.cons_append, List.dropWhile_cons, if_neg (by simp [hc])]
  have hnl : isPyWhitespace '\n' = true := rfl
  have h4 : List.dropWhile isPyWhitespace ('\n' :: '\n' :: b.toList.reverse) =
      b.toList.reverse := by
    rw [List.dropWhile_cons, if_pos hnl, List.dropWhile_cons, if_pos hnl, hr,
      List.dropWhile_cons, if_neg (by simp [hc'])]
  have h5 : pyStripList (b.toList ++ ['\n', '\n']) = b.toList := by
    rw [pyStripList, h2, List.reverse_append]
    have h3 : (['\n', '\n'] : List Char).reverse ++ b.toList.reverse =
        '\n' :: '\n' :: b.toList.reverse := rfl
    rw [h3, h4, List.reverse_reverse]
  rw [pyStrip, h1, h5]
  rfl

lemma pyStrip_getLast_not_ws (s : String) (c : Char)
    (h : (pyStrip s).toList.getLast? = some c) : isPyWhitespace c = false := by
  have h1 : (pyStrip s).toList = pyStripList s.toList := rfl
  rw [h1, pyStripList, List.getLast?_reverse] at h
  have h2 := List.head?_dropWhile_not isPyWhitespace
    ((s.toList.dropWhile isPyWhitespace).reverse)
  rw [h] at h2
  exact h2

/-- Concrete value of the formatter at 0 seconds, for the concrete-input
computations below. -/
lemma convert_zero : convert_seconds_to_srt_time 0 = "00:00:00,000" := by
  norm_num [convert_seconds_to_srt_time, pyMod, pad, padNat]; decide

/-- Concrete value of the formatter at 2 seconds. -/
lemma convert_two : convert_seconds_to_srt_time 2 = "00:00:02,000" := by
  norm_num [convert_seconds_to_srt_time, pyMod, pad, padNat]; decide

/-- C3 counterexample: for the segment list whose single segment has text
"Hi " (trailing space), the emitted bytes end in "Hi" — the final `strip()`
removes the text's trailing whitespace along with the trailing separator —
so the output is not the claimed entry rendering (`srtBody`), which keeps
the segment's text verbatim.  The claim, universally quantified over all
segment lists, is therefore false of the program. -/
theorem generate_srt_strip_counterexample :
    generate_new_srt [⟨0, 2, "Hi "⟩] = "1\n00:00:00,000 --> 00:00:02,000\nHi" ∧
    srtBody 0 [⟨0, 2, "Hi "⟩] = "1\n00:00:00,000 --> 00:00:02,000\nHi " ∧
    generate_new_srt [⟨0, 2, "Hi "⟩] ≠ srtBody 0 [⟨0, 2, "Hi "⟩] := by
  have hg : generate_new_srt [⟨0, 2, "Hi "⟩] = "1\n00:00:00,000 --> 00:00:02,000\nHi" := by
    simp [generate_new_srt, srtLoop, srtEntry, convert_zero, convert_two, pyStrip,
      pyStripList, isPyWhitespace]
    decide
  have hb : srtBody 0 [⟨0, 2, "Hi "⟩] = "1\n00:00:00,000 --> 00:00:02,000\nHi " := by
    simp [srtBody, srtEntry, convert_zero, convert_two]
    decide
  exact ⟨hg, hb, by rw [hg, hb]; decide⟩

/-- C3 amended: for every segment list whose last segment's text ends in a
character that `str.strip()` does not remove, `generate_new_srt` emits one
entry per segment in input order — a sequential integer index starting at 1,
a `start --> end` line in `HH:MM:SS,mmm` notation, the segment text — with a
blank line separating consecutive entries (`srtBody` is exactly that
rendering), the final `strip()` removing only the trailing separator; being a
function, it reproduces the same bytes for the same segments.  (Without the
hypothesis the claim fails: see the counterexample above.) -/
theorem generate_new_srt_format (segs : List Segment)
    (h : ∃ last c, segs.getLast? = some last ∧ last.text.toList.getLast? = some c ∧
      isPyWhitespace c = false) :
    generate_new_srt segs = srtBody 0 segs := by
  obtain ⟨last, c, hl, hc, hw⟩ := h
  obtain ⟨s, rest, rfl⟩ : ∃ s rest, segs = s :: rest := by
    cases segs with
    | nil => simp at hl
    | cons s rest => exact ⟨s, rest, rfl⟩
  rw [generate_new_srt, srtLoop_eq_body]
  exact pyStrip_body (srtBody_zero_head s rest) rfl (srtBody_getLast hl hc) hw

/-- Witness for C3 on the spec's two-segment end-to-end example. -/
theorem generate_new_srt_format_witness :
    generate_new_srt [⟨0, 2, "שלום"⟩, ⟨2, 4, "להתראות"⟩] =
      srtBody 0 [⟨0, 2, "שלום"⟩, ⟨2, 4, "להתראות"⟩] :=
  generate_new_srt_format _ ⟨⟨2, 4, "להתראות"⟩, 'ת', rfl, rfl, rfl⟩

/-- C10 counterexample: with last text "a " (trailing space) the program's
output ends in "a", so it does not end with the last segment's text; the
unconditional claim is false of the program. -/
theorem generate_srt_trailing_counterexample :
    generate_new_srt [⟨0, 2, "a "⟩] = "1\n00:00:00,000 --> 00:00:02,000\na" ∧
    ¬ ∃ p : String, generate_new_srt [⟨0, 2, "a "⟩] = p ++ "a " := by
  have hg : generate_new_srt [⟨0, 2, "a "⟩] = "1\n00:00:00,000 --> 00:00:02,000\na" := by
    simp [generate_new_srt, srtLoop, srtEntry, convert_zero, convert_two, pyStrip,
      pyStripList, isPyWhitespace]
    decide
  refine ⟨hg, ?_⟩
  rintro ⟨p, hp⟩
  rw [hg] at hp
  have h1 : ("1\n00:00:00,000 --> 00:00:02,000\na" : String).toList.getLast? = some 'a' := by
    decide
  have h3 : (p ++ "a ").toList.getLast? = some ' ' := by
    have h2 : (p ++ "a ").toList = p.toList ++ ['a', ' '] := by
      simp [String.toList, String.data_append]
    rw [h2, List.getLast?_append]
    rfl
  rw [hp] at h1
  exact absurd (h1.symm.trans h3) (by decide)

/-- C10 amended: `generate_new_srt []` is the empty string; the output never
ends in a character that `str.strip()` removes (in particular no trailing
blank line or whitespace), and whenever the last segment's text ends in a
non-whitespace character the output ends with exactly that text.  (The
unconditional ends-with claim fails: see the counterexample above.) -/
theorem generate_new_srt_empty_and_no_trailing :
    generate_new_srt [] = "" ∧
    (∀ (segs : List Segment) (c : Char),
      (generate_new_srt segs).toList.getLast? = some c → isPyWhitespace c = false) ∧
    (∀ (segs : List Segment) (last : Segment) (c : Char),
      segs.getLast? = some last → last.text.toList.getLast? = some c →
      isPyWhitespace c = false → ∃ p : String, generate_new_srt segs = p ++ last.text) := by
  refine ⟨rfl, ?_, ?_⟩
  · intro segs c h
    exact pyStrip_getLast_not_ws _ _ h
  · intro segs last c hl hc hw
    obtain ⟨s, rest, rfl⟩ : ∃ s rest, segs = s :: rest := by
      cases segs with
      | nil => simp at hl
      | cons s rest => exact ⟨s, rest, rfl⟩
    rw [generate_new_srt, srtLoop_eq_body,
      pyStrip_body (srtBody_zero_head s rest) rfl (srtBody_getLast hl hc) hw]
    exact srtBody_ends_with 0 _ last hl

/-- Witness for C10 at a one-segment list. -/
theorem generate_new_srt_empty_and_no_trailing_witness :
    ∃ p : String, generate_new_srt [⟨0, 2, "שלום"⟩] = p ++ "שלום" :=
  generate_new_srt_empty_and_no_trailing.2.2 [⟨0, 2, "שלום"⟩] ⟨0, 2, "שלום"⟩ 'ם' rfl rfl rfl


/-- The reconciliation failure signalled at src/app.py lines 193-194: a
`RuntimeError` whose message carries the expected segment count and the
received translation count. -/
inductive ReconciliationError where
  | countMismatch (expected got : ℕ)
  deriving Repr, DecidableEq

/-- The message of the RuntimeError raised at src/app.py line 194:
`f"Translation segments mismatch: Expected {len(original_segments)} translations but got {len(translated_texts)}."` -/
def ReconciliationError.message : ReconciliationError → String
  | .countMismatch expected got =>
      "Translation segments mismatch: Expected " ++ toString expected ++
        " translations but got " ++ toString got ++ "."

/-- The reconciliation step of `get_transcript_and_translation` (src/app.py
lines 193-204): raise when the translated array's length differs from the
original segment count; otherwise rebuild segment `i` from original segment
`i`'s `start` and `end` and translated text `i`. -/
def rebuildSegments (original_segments : List Segment) (translated_texts : List String) :
    Except ReconciliationError (List Segment) :=
  if translated_texts.length ≠ original_segments.length then
    .error (.countMismatch original_segments.length translated_texts.length)
  else
    .ok (List.zipWith (fun o t => { start := o.start, stop := o.stop, text := t })
      original_segments translated_texts)

/-- The `except Exception` clause at src/app.py lines 215-217: every error
raised inside the `try` block (in particular the no-segments and
count-mismatch `RuntimeError`s) is caught and re-raised as
`RuntimeError(f"Groq API call failed during processing. Error: {e}")`. -/
def groqWrap (msg : String) : String :=
  "Groq API call failed during processing. Error: " ++ msg

/-- Embedding of `get_transcript_and_translation` (src/app.py lines 130-217)
downstream of the external service calls: its inputs are the transcription
response's `segments` and `text` and the parsed array of translated strings.
It raises when no segments came back (lines 156-157), rebuilds the segments
with the translated texts (lines 193-204), and returns the original text
together with the generated SRT content (lines 207-209).  A raised
`RuntimeError` is `.error` carrying its message after the re-wrap the
`except` clause at lines 215-217 applies. -/
def get_transcript_and_translation (segments : List Segment) (text : String)
    (translated_texts : List String) : Except String (String × String) :=
  if segments = [] then
    .error (groqWrap "Whisper did not return valid segments for synchronization.")
  else
    match rebuildSegments segments translated_texts with
    | .error e => .error (groqWrap e.message)
    | .ok final_segments => .ok (text, generate_new_srt final_segments)

/-- The subtitle-producing slice of `handle_video` (src/app.py lines 284-310):
a raised error is caught by the surrounding `except` and no subtitle file is
written (`none`); an empty SRT string aborts before rendering (lines
291-293); otherwise the SRT content is written and burned in (`some`). -/
def handle_video_srt (segments : List Segment) (text : String)
    (translated_texts : List String) : Option String :=
  match get_transcript_and_translation segments text translated_texts with
  | .error _ => none
  | .ok (_, final_translated_srt) =>
      if final_translated_srt = "" then none else some final_translated_srt

/-- With no transcription segments, `get_transcript_and_translation` raises
(with the line 215-217 re-wrap applied to the line-157 message). -/
lemma get_tt_nil (text : String) (translated_texts : List String) :
    get_transcript_and_translation [] text translated_texts =
      .error (groqWrap "Whisper did not return valid segments for synchronization.") := by
  rw [get_transcript_and_translation, if_pos rfl]

/-- C1: when the translated array's length equals the original segment count,
the rebuild step succeeds with a list of the same length in which segment `i`
keeps original segment `i`'s start and end times and carries the `i`-th
translated string as its text. -/
theorem rebuild_preserves_timings_and_texts (original_segments : List Segment)
    (translated_texts : List String)
    (hlen : translated_texts.length = original_segments.length) :
    ∃ out : List Segment,
      rebuildSegments original_segments translated_texts = .ok out ∧
      out.length = original_segments.length ∧
      ∀ i (h1 : i < out.length) (h2 : i < original_segments.length)
        (h3 : i < translated_texts.length),
        (out.get ⟨i, h1⟩).start = (original_segments.get ⟨i, h2⟩).start ∧
        (out.get ⟨i, h1⟩).stop = (original_segments.get ⟨i, h2⟩).stop ∧
        (out.get ⟨i, h1⟩).text = translated_texts.get ⟨i, h3⟩ := by
  refine ⟨List.zipWith (fun o t => { start := o.start, stop := o.stop, text := t })
      original_segments translated_texts, ?_, ?_, ?_⟩
  · rw [rebuildSegments, if_neg (by simp [hlen])]
  · simp [List.length_zipWith, hlen]
  · intro i h1 h2 h3
    simp [List.get_eq_getElem, List.getElem_zipWith]

/-- Witness for C1 on the spec's two-segment end-to-end example. -/
theorem rebuild_preserves_timings_and_texts_witness :
    ∃ out : List Segment,
      rebuildSegments [⟨0, 2, "Hi"⟩, ⟨2, 4, "Bye"⟩] ["שלום", "להתראות"] = .ok out ∧
      out.length = 2 ∧
      ∀ i (h1 : i < out.length) (h2 : i < ([⟨0, 2, "Hi"⟩, ⟨2, 4, "Bye"⟩] : List Segment).length)
        (h3 : i < (["שלום", "להתראות"] : List String).length),
        (out.get ⟨i, h1⟩).start = (([⟨0, 2, "Hi"⟩, ⟨2, 4, "Bye"⟩] : List Segment).get ⟨i, h2⟩).start ∧
        (out.get ⟨i, h1⟩).stop = (([⟨0, 2, "Hi"⟩, ⟨2, 4, "Bye"⟩] : List Segment).get ⟨i, h2⟩).stop ∧
        (out.get ⟨i, h1⟩).text = (["שלום", "להתראות"] : List String).get ⟨i, h3⟩ :=
  rebuild_preserves_timings_and_texts [⟨0, 2, "Hi"⟩, ⟨2, 4, "Bye"⟩] ["שלום", "להתראות"] rfl

/-- C2: when the lengths differ, reconciliation fails with a count-mismatch
error carrying the expected count (original segments) and the received count
(translated strings), and produces no output list at all — nothing is
truncated or padded. -/
theorem rebuild_count_mismatch (original_segments : List Segment)
    (translated_texts : List String)
    (hne : translated_texts.length ≠ original_segments.length) :
    rebuildSegments original_segments translated_texts =
      .error (.countMismatch original_segments.length translated_texts.length) ∧
    ∀ out : List Segment, rebuildSegments original_segments translated_texts ≠ .ok out := by
  refine ⟨by rw [rebuildSegments, if_pos hne], ?_⟩
  intro out h
  rw [rebuildSegments, if_pos hne] at h
  exact Except.noConfusion h

/-- Witness for C2 at one segment against two translated strings. -/
theorem rebuild_count_mismatch_witness :
    rebuildSegments [⟨0, 2, "Hi"⟩] ["שלום", "להתראות"] =
      .error (.countMismatch 1 2) ∧
    ∀ out : List Segment, rebuildSegments [⟨0, 2, "Hi"⟩] ["שלום", "להתראות"] ≠ .ok out :=
  rebuild_count_mismatch [⟨0, 2, "Hi"⟩] ["שלום", "להתראות"] (by decide)

/-- C7 counterexample: with no segments at all, `get_transcript_and_translation`
raises — the line-157 `RuntimeError("Whisper did not return valid segments
for synchronization.")`, re-wrapped by the `except` clause at lines 215-217
into `RuntimeError("Groq API call failed during processing. Error: ...")` —
and produces no output; in particular it does not collapse to a single
segment spanning the video duration, contrary to the claim. -/
theorem no_segments_collapse_counterexample :
    get_transcript_and_translation [] "Hello" ["שלום"] =
      .error ("Groq API call failed during processing. Error: " ++
        "Whisper did not return valid segments for synchronization.") ∧
    ∀ res : String × String, get_transcript_and_translation [] "Hello" ["שלום"] ≠ .ok res := by
  refine ⟨get_tt_nil _ _, ?_⟩
  intro res h
  rw [get_tt_nil] at h
  exact Except.noConfusion h

/-- C7 amended: when the transcription carries no segment-level timing (no
segments), the code raises — the message "Whisper did not return valid
segments for synchronization." wrapped by the catch-all `except` into "Groq
API call failed during processing. Error: ..." — and produces no subtitle
data; there is no single-segment fallback spanning the video duration. -/
theorem no_segments_raises (text : String) (translated_texts : List String) :
    get_transcript_and_translation [] text translated_texts =
      .error (groqWrap "Whisper did not return valid segments for synchronization.") ∧
    ∀ res : String × String,
      get_transcript_and_translation [] text translated_texts ≠ .ok res := by
  refine ⟨get_tt_nil _ _, ?_⟩
  intro res h
  rw [get_tt_nil] at h
  exact Except.noConfusion h

/-- C8: whenever transcription yields no usable segments the pipeline
propagates an error and produces no subtitle output, and whenever
`handle_video` proceeds to rendering the subtitle data is non-empty (an empty
SRT string aborts at src/app.py lines 291-293). -/
theorem pipeline_never_renders_empty :
    (∀ (text : String) (translated_texts : List String),
      handle_video_srt [] text translated_texts = none) ∧
    (∀ (segments : List Segment) (text : String) (translated_texts : List String)
      (srt : String),
      handle_video_srt segments text translated_texts = some srt → srt ≠ "") := by
  constructor
  · intro text tr
    rw [handle_video_srt, get_tt_nil]
  · intro segs text tr srt h hsrt
    rw [handle_video_srt] at h
    cases hg : get_transcript_and_translation segs text tr with
    | error e => rw [hg] at h; exact Option.noConfusion h
    | ok p =>
      obtain ⟨a, b⟩ := p
      rw [hg] at h
      change (if b = "" then none else some b) = some srt at h
      by_cases hb : b = ""
      · rw [if_pos hb] at h
        exact Option.noConfusion h
      · rw [if_neg hb] at h
        exact hb ((Option.some.inj h).trans hsrt)

/-- Witness for C8: a successful one-segment run produces non-empty SRT. -/
theorem pipeline_never_renders_empty_witness :
    handle_video_srt [⟨0, 2, "Hi"⟩] "Hi" ["שלום"] =
      some "1\n00:00:00,000 --> 00:00:02,000\nשלום" ∧
    "1\n00:00:00,000 --> 00:00:02,000\nשלום" ≠ "" := by
  have h0 : convert_seconds_to_srt_time 0 = "00:00:00,000" := by
    norm_num [convert_seconds_to_srt_time, pyMod, pad, padNat]; decide
  have h2 : convert_seconds_to_srt_time 2 = "00:00:02,000" := by
    norm_num [convert_seconds_to_srt_time, pyMod, pad, padNat]; decide
  have hcomp : handle_video_srt [⟨0, 2, "Hi"⟩] "Hi" ["שלום"] =
      some "1\n00:00:00,000 --> 00:00:02,000\nשלום" := by
    simp [handle_video_srt, get_transcript_and_translation, rebuildSegments,
      generate_new_srt, srtLoop, srtEntry, h0, h2, pyStrip, pyStripList, isPyWhitespace]
    decide
  exact ⟨hcomp, pipeline_never_renders_empty.2 _ _ _ _ hcomp⟩

/-- Per-character action of Python `html.escape` with its default
`quote=True`: `&`, `<`, `>`, `\x22` and `\x27` become entities, every other
character is kept.  (`html.escape` replaces `&` first, so the per-character
map agrees with its sequential `str.replace` calls.) -/
def escCharL (c : Char) : List Char :=
  if c = '&' then "&amp;".toList
  else if c = '<' then "&lt;".toList
  else if c = '>' then "&gt;".toList
  else if c = Char.ofNat 34 then "&quot;".toList
  else if c = Char.ofNat 39 then "&#x27;".toList
  else [c]

/-- Python `html.escape` at the character-list level. -/
def escapeL : List Char → List Char
  | [] => []
  | c :: rest => escCharL c ++ escapeL rest

/-- Python `html.escape(s)` (quote=True, the default used implicitly at
src/app.py line 63). -/
def htmlEscape (s : String) : String := String.mk (escapeL s.toList)

/-- `MAX_TRACEBACK_LEN` from src/app.py line 57. -/
def MAX_TRACEBACK_LEN : ℕ := 3000

/-- The truncation marker appended at src/app.py line 60. -/
def truncMarker : String := "\n... [המשך השגיאה קוצץ] ..."

/-- The traceback truncation of src/app.py lines 59-60: tracebacks longer
than `MAX_TRACEBACK_LEN` characters are cut to their first
`MAX_TRACEBACK_LEN` characters and the marker is appended. -/
def truncateTraceback (full_traceback : String) : String :=
  if full_traceback.length > MAX_TRACEBACK_LEN then
    full_traceback.take MAX_TRACEBACK_LEN ++ truncMarker
  else full_traceback

/-- The message header built at src/app.py line 54. -/
def errorHeader (error_message : String) : String :=
  "❌ <b>שגיאה קריטית:</b> " ++ error_message ++ "\n\n"

/-- Embedding of the message composition in `safe_send_error_message`
(src/app.py lines 48-65): the header, then — when a traceback was given —
the technical-details block with the truncated, HTML-escaped traceback
inside `<pre>` tags.  (The actual Telegram send of the composed string is an
external effect outside the model.) -/
def safe_send_error_message (error_message full_traceback : String) : String :=
  let full_message := errorHeader error_message
  if full_traceback = "" then full_message
  else
    full_message ++ "<u>פרטים טכניים:</u>\n<pre>" ++
      htmlEscape (truncateTraceback full_traceback) ++ "</pre>"

/-- Checker for "every ampersand is part of an escape": each occurrence of
`&` must be immediately followed by `amp;`, `lt;`, `gt;`, `quot;` or `#x27;`.
Entity tails contain no `&`, so scanning every suffix is sound. -/
def ampOkB : List Char → Bool
  | [] => true
  | c :: rest =>
      (if c = '&' then
        rest.take 4 = "amp;".toList || rest.take 3 = "lt;".toList ||
          rest.take 3 = "gt;".toList || rest.take 5 = "quot;".toList ||
          rest.take 5 = "#x27;".toList
      else true) && ampOkB rest

/-- No escaped character produces a raw angle bracket. -/
lemma escCharL_no_angle (c : Char) : '<' ∉ escCharL c ∧ '>' ∉ escCharL c := by
  rw [escCharL]
  split_ifs <;> first | decide | simp_all [eq_comm]

lemma escapeL_no_angle : ∀ l : List Char, '<' ∉ escapeL l ∧ '>' ∉ escapeL l := by
  intro l
  induction l with
  | nil => simp [escapeL]
  | cons c rest ih =>
    rw [escapeL]
    constructor
    · intro h
      rcases List.mem_append.mp h with h' | h'
      · exact (escCharL_no_angle c).1 h'
      · exact ih.1 h'
    · intro h
      rcases List.mem_append.mp h with h' | h'
      · exact (escCharL_no_angle c).2 h'
      · exact ih.2 h'

lemma ampOkB_escCharL (c : Char) (l : List Char) (h : ampOkB l = true) :
    ampOkB (escCharL c ++ l) = true := by
  rw [escCharL]
  split_ifs with h1 h2 h3 h4 h5 <;> simp [ampOkB, h] <;> tauto

lemma ampOkB_escapeL : ∀ l : List Char, ampOkB (escapeL l) = true := by
  intro l
  induction l with
  | nil => rfl
  | cons c rest ih => rw [escapeL]; exact ampOkB_escCharL c _ ih

lemma ampOkB_entity : ∀ (pre : List Char) (l suf : List Char), ampOkB l = true →
    l = pre ++ '&' :: suf →
    (suf.take 4 = "amp;".toList ∨ suf.take 3 = "lt;".toList ∨
      suf.take 3 = "gt;".toList ∨ suf.take 5 = "quot;".toList ∨
      suf.take 5 = "#x27;".toList) := by
  intro pre
  induction pre with
  | nil =>
    intro l suf hok hl
    subst hl
    simp only [ampOkB, if_pos rfl, if_true, eq_self_iff_true, Bool.and_eq_true,
      Bool.or_eq_true, decide_eq_true_eq] at hok
    tauto
  | cons p pre ih =>
    intro l suf hok hl
    subst hl
    simp only [ampOkB, Bool.and_eq_true] at hok
    exact ih _ suf hok.2 rfl

/-- C9: the composed error message embeds at most the first 3000 characters
of the traceback (appending the explicit truncation marker if and only if the
traceback is longer), and the embedded traceback is HTML-escaped: the
`<pre>` payload contains no `<` or `>` at all, and every `&` in it starts one
of the entities `&amp;` `&lt;` `&gt;` `&quot;` `&#x27;`, so no unescaped
`<`, `>` or `&` from the traceback survives. -/
theorem error_message_truncates_and_escapes (error_message full_traceback : String) :
    safe_send_error_message error_message full_traceback =
        errorHeader error_message ++
          (if full_traceback = "" then ""
           else "<u>פרטים טכניים:</u>\n<pre>" ++
             htmlEscape (truncateTraceback full_traceback) ++ "</pre>") ∧
    (full_traceback.length > MAX_TRACEBACK_LEN →
      truncateTraceback full_traceback =
        full_traceback.take MAX_TRACEBACK_LEN ++ truncMarker) ∧
    (full_traceback.length ≤ MAX_TRACEBACK_LEN →
      truncateTraceback full_traceback = full_traceback) ∧
    '<' ∉ (htmlEscape (truncateTraceback full_traceback)).toList ∧
    '>' ∉ (htmlEscape (truncateTraceback full_traceback)).toList ∧
    (∀ pre suf : List Char,
      (htmlEscape (truncateTraceback full_traceback)).toList = pre ++ '&' :: suf →
      suf.take 4 = "amp;".toList ∨ suf.take 3 = "lt;".toList ∨
        suf.take 3 = "gt;".toList ∨ suf.take 5 = "quot;".toList ∨
        suf.take 5 = "#x27;".toList) := by
  refine ⟨?_, fun h => by rw [truncateTraceback, if_pos h],
    fun h => by rw [truncateTraceback, if_neg (not_lt.mpr h)], ?_, ?_, ?_⟩
  · rw [safe_send_error_message]
    by_cases h : full_traceback = ""
    · simp [h]
    · rw [if_neg h, if_neg h]
      simp [String.append_assoc]
  · exact fun h => (escapeL_no_angle (truncateTraceback full_traceback).toList).1 h
  · exact fun h => (escapeL_no_angle (truncateTraceback full_traceback).toList).2 h
  · intro pre suf h
    exact ampOkB_entity pre _ suf (ampOkB_escapeL _) h

/-- Witness for C9: a short traceback is embedded untruncated. -/
theorem error_message_truncates_and_escapes_witness :
    "a<b&c".length ≤ MAX_TRACEBACK_LEN ∧ truncateTraceback "a<b&c" = "a<b&c" :=
  ⟨by decide, (error_message_truncates_and_escapes "msg" "a<b&c").2.2.1 (by decide)⟩


/-- Modelled from the spec: no FullText sentence-splitting reconciler exists
in src/ (the spec consolidates several historical variants of the codebase;
src/app.py holds only the SegmentedText path).  Sentence-terminal punctuation
per §4.2: `.`, `!`, `?`. -/
def isSentenceTerminal (c : Char) : Bool := c = '.' || c = '!' || c = '?'

/-- Modelled from the spec: split on sentence-terminal punctuation, keeping
the delimiter as part of the preceding chunk; trailing content without a
terminal delimiter becomes a final chunk.  `acc` holds the current chunk's
characters in reverse. -/
def rawChunksAux : List Char → List Char → List String
  | acc, [] => if acc.isEmpty then [] else [String.mk acc.reverse]
  | acc, c :: rest =>
    if isSentenceTerminal c then String.mk (c :: acc).reverse :: rawChunksAux [] rest
    else rawChunksAux (c :: acc) rest

/-- Modelled from the spec: the sentence-like chunks of a `FullText`
translation — raw chunks trimmed of surrounding whitespace, empty chunks
dropped (matching the spec's worked example, where no chunk keeps the blank
that follows a delimiter). -/
def splitSentences (s : String) : List String :=
  ((rawChunksAux [] s.toList).map pyStrip).filter (fun c => c ≠ "")

/-- Modelled from the spec: walk the original segments in order, assigning
the next available chunk to each; once chunks are exhausted, repeat the last
assigned chunk rather than emitting empty text. -/
def assignChunksAux : List String → String → ℕ → List String
  | _, _, 0 => []
  | [], last, n + 1 => last :: assignChunksAux [] last n
  | c :: cs, _, n + 1 => c :: assignChunksAux cs c n

/-- Modelled from the spec: the chunk assigned to each of the `n` original
segments. -/
def assignChunks (chunks : List String) (n : ℕ) : List String :=
  assignChunksAux chunks "" n

/-- Modelled from the spec: the `FullText` reconciliation policy of §4.2 —
split the translated text into sentence-like chunks and map them onto the
original segments in order, preserving timings. -/
def reconcileFullText (orig : List Segment) (full_text : String) : List Segment :=
  List.zipWith (fun o t => { start := o.start, stop := o.stop, text := t })
    orig (assignChunks (splitSentences full_text) orig.length)

/-- Closed form of chunk assignment: the first `min n (number of chunks)`
segments get the chunks in order, the remaining segments all get the last
chunk. -/
lemma assignChunksAux_eq (n : ℕ) : ∀ (chunks : List String) (last : String),
    assignChunksAux chunks last n =
      chunks.take n ++ List.replicate (n - chunks.length) (chunks.getLastD last) := by
  induction n with
  | zero => intro chunks last; simp [assignChunksAux]
  | succ n ih =>
    intro chunks last
    cases chunks with
    | nil => simp [assignChunksAux, ih, List.replicate_succ]
    | cons c cs =>
      simp only [assignChunksAux, ih, List.take_succ_cons, List.length_cons,
        Nat.succ_sub_succ, List.cons_append, List.getLastD_cons]

/-- Rebuilding with an equal-length text list preserves timings elementwise
and installs exactly the given texts. -/
lemma zipWith_rebuild_proj : ∀ (orig : List Segment) (ass : List String),
    ass.length = orig.length →
    (List.zipWith (fun o t => { start := o.start, stop := o.stop, text := t })
        orig ass).map Segment.start = orig.map Segment.start ∧
    (List.zipWith (fun o t => { start := o.start, stop := o.stop, text := t })
        orig ass).map Segment.stop = orig.map Segment.stop ∧
    (List.zipWith (fun o t => { start := o.start, stop := o.stop, text := t })
        orig ass).map Segment.text = ass := by
  intro orig
  induction orig with
  | nil => intro ass h; rw [List.length_nil, List.length_eq_zero] at h; subst h; simp
  | cons o os ih =>
    intro ass h
    cases ass with
    | nil => simp at h
    | cons a as =>
      simp only [List.length_cons, Nat.succ.injEq] at h
      have := ih as h
      simp [List.zipWith_cons_cons, this.1, this.2.1, this.2.2]

lemma assignChunks_length (chunks : List String) (n : ℕ) :
    (assignChunks chunks n).length = n := by
  rw [assignChunks, assignChunksAux_eq]
  simp [List.length_take, List.length_replicate]
  omega

/-- C6: splitting "Hello world. How are you? Fine!" yields the chunks
"Hello world.", "How are you?", "Fine!" (delimiters kept, trailing text
without a delimiter forming a final chunk), and with 3 original segments they
map 1:1 onto the segments in order with timings preserved; in general the
first chunks are assigned in order and, once exhausted, the last assigned
chunk is repeated (never empty text). -/
theorem fulltext_reconciler_spec :
    splitSentences "Hello world. How are you? Fine!" =
      ["Hello world.", "How are you?", "Fine!"] ∧
    splitSentences "Hello world. How are" = ["Hello world.", "How are"] ∧
    reconcileFullText [⟨0, 1, "a"⟩, ⟨1, 2, "b"⟩, ⟨2, 3, "c"⟩]
        "Hello world. How are you? Fine!" =
      [⟨0, 1, "Hello world."⟩, ⟨1, 2, "How are you?"⟩, ⟨2, 3, "Fine!"⟩] ∧
    (∀ (chunks : List String) (n : ℕ),
      assignChunks chunks n =
        chunks.take n ++ List.replicate (n - chunks.length) (chunks.getLastD "")) ∧
    (∀ (orig : List Segment) (full_text : String),
      (reconcileFullText orig full_text).map Segment.start = orig.map Segment.start ∧
      (reconcileFullText orig full_text).map Segment.stop = orig.map Segment.stop ∧
      (reconcileFullText orig full_text).map Segment.text =
        assignChunks (splitSentences full_text) orig.length) := by
  refine ⟨by decide, by decide, rfl, ?_, ?_⟩
  · intro chunks n
    rw [assignChunks, assignChunksAux_eq]
  · intro orig full_text
    exact zipWith_rebuild_proj orig _ (assignChunks_length _ _)


end VidTransHeb
